import Mathlib

/-!
Verification of the cache-with-background-refresh coordinator of
bds-version-lookup.

Shallow embedding of the cache logic in utils.ts (the cache-enabled
variant) and the status endpoint of index.ts:

* The JS ambient clock Date.now() becomes an explicit natural-number
  argument (milliseconds).  JS computes a possibly negative difference
  and compares it with the TTL; with natural subtraction a clock earlier
  than the stored timestamp yields 0, and both sides then judge the
  entry fresh, so truncated subtraction is observationally faithful.
* The fetcher (lookupLatestVersionInternal, a puppeteer scrape) is an
  external collaborator; its outcome is passed in as a value of
  Except String String (error message or version string).
* The global versionCache object becomes an association list from the
  string cache key to the entry; JS object field update is modelled as
  replacement of the binding at the key.
* The async function refreshCacheEntry runs synchronously up to its
  first await (the claim phase: the refreshing check and the marking)
  and resumes later (the completion phase).  It is therefore embedded
  as two functions, refreshCacheEntryClaim and refreshCacheEntryComplete.
  The mutation entry.refreshing = false in the catch branch is modelled
  as an update of the binding at the key, which coincides with the JS
  object mutation whenever the binding still holds the object captured
  at claim time.
-/

/-- The bdsType parameter: the platform, "win" or "linux" (config.ts
VALID_BDS_TYPES). -/
inductive BdsType where
  | win
  | linux
deriving DecidableEq, Repr

/-- String form of the platform, as interpolated into the cache key. -/
def bdsTypeStr : BdsType → String
  | .win => "win"
  | .linux => "linux"

/-- CacheEntry of utils.ts: version string, timestamp of the fetch that
wrote it (ms), and the in-flight background-refresh flag.  The optional
JS field refreshing? is absent exactly when falsy in every write the
code performs, so a plain Bool is faithful. -/
structure CacheEntry where
  version : String
  timestamp : Nat
  refreshing : Bool
deriving DecidableEq, Repr

/-- The global versionCache: CacheStore of utils.ts, keyed by the string
produced by getCacheKey. -/
abbrev CacheStore := List (String × CacheEntry)

/-- Read of versionCache[key]. -/
def lookupStore : CacheStore → String → Option CacheEntry
  | [], _ => none
  | (k, e) :: rest, key => if k = key then some e else lookupStore rest key

/-- Write of versionCache[key] = e: replaces the binding if the key is
present, appends it otherwise. -/
def insertStore : CacheStore → String → CacheEntry → CacheStore
  | [], key, e => [(key, e)]
  | (k, e₀) :: rest, key, e =>
      if k = key then (k, e) :: rest else (k, e₀) :: insertStore rest key e

/-- getCacheKey of utils.ts. -/
def getCacheKey (bdsType : BdsType) (bdsPreview : Bool) : String :=
  bdsTypeStr bdsType ++ "-" ++ (if bdsPreview then "preview" else "stable")

/-- CACHE_DURATION_MS of config.ts: 6 hours in milliseconds. -/
def CACHE_DURATION_MS : Nat := 6 * 60 * 60 * 1000

/-- isCacheValid of utils.ts, with Date.now() passed explicitly. -/
def isCacheValid (now : Nat) (entry : CacheEntry) : Bool :=
  now - entry.timestamp < CACHE_DURATION_MS

/-- getCachedVersion of utils.ts: returns the stored version whenever an
entry exists, even if expired. -/
def getCachedVersion (c : CacheStore) (bdsType : BdsType) (bdsPreview : Bool) :
    Option String :=
  match lookupStore c (getCacheKey bdsType bdsPreview) with
  | none => none
  | some entry => some entry.version

/-- setCachedVersion of utils.ts: overwrites the entry with the fetched
version, the current time and refreshing = false. -/
def setCachedVersion (c : CacheStore) (bdsType : BdsType) (bdsPreview : Bool)
    (version : String) (now : Nat) : CacheStore :=
  insertStore c (getCacheKey bdsType bdsPreview)
    { version := version, timestamp := now, refreshing := false }

/-- The synchronous prefix of refreshCacheEntry, up to the first await:
if the entry is already refreshing the call is a no-op (single-flight
guard); otherwise the entry, when present, is marked refreshing and the
background fetch is launched.  The Bool records whether a fetch task was
launched. -/
def refreshCacheEntryClaim (c : CacheStore) (bdsType : BdsType)
    (bdsPreview : Bool) : CacheStore × Bool :=
  let key := getCacheKey bdsType bdsPreview
  match lookupStore c key with
  | some entry =>
      if entry.refreshing then (c, false)
      else (insertStore c key { entry with refreshing := true }, true)
  | none => (c, true)

/-- The continuation of refreshCacheEntry after the awaited fetch
resolves: on success setCachedVersion, on failure clear the refreshing
flag of the entry at the key and keep version and timestamp. -/
def refreshCacheEntryComplete (c : CacheStore) (bdsType : BdsType)
    (bdsPreview : Bool) (res : Except String String) (now : Nat) : CacheStore :=
  match res with
  | .ok v => setCachedVersion c bdsType bdsPreview v now
  | .error _ =>
      let key := getCacheKey bdsType bdsPreview
      match lookupStore c key with
      | some entry => insertStore c key { entry with refreshing := false }
      | none => c

/-- checkAndRefreshCache of utils.ts: when the entry is missing or
expired, trigger the (non-awaited) background refresh.  Returns the
store after the synchronous claim phase and whether a fetch was
launched. -/
def checkAndRefreshCache (c : CacheStore) (bdsType : BdsType)
    (bdsPreview : Bool) (now : Nat) : CacheStore × Bool :=
  let key := getCacheKey bdsType bdsPreview
  match lookupStore c key with
  | some entry =>
      if isCacheValid now entry then (c, false)
      else refreshCacheEntryClaim c bdsType bdsPreview
  | none => refreshCacheEntryClaim c bdsType bdsPreview

/-- Outcome of one synchronous call to lookupLatestVersion: the value
returned (or the propagated fetch error), the store after the
synchronous part of the call, whether a background fetch task was
launched, and how many synchronous fetcher calls were made. -/
structure LookupResult where
  ret : Except String String
  cache : CacheStore
  refreshLaunched : Bool
  syncFetches : Nat
deriving Repr

/-- lookupLatestVersion of utils.ts (the cached public lookup).  The
fetch argument is the outcome the fetcher would produce if invoked
synchronously on this call. -/
def lookupLatestVersion (c : CacheStore) (bdsType : BdsType)
    (bdsPreview : Bool) (now : Nat) (fetch : Except String String) :
    LookupResult :=
  match getCachedVersion c bdsType bdsPreview with
  | some cachedVersion =>
      { ret := .ok cachedVersion,
        cache := (checkAndRefreshCache c bdsType bdsPreview now).1,
        refreshLaunched := (checkAndRefreshCache c bdsType bdsPreview now).2,
        syncFetches := 0 }
  | none =>
      match fetch with
      | .ok version =>
          { ret := .ok version,
            cache := setCachedVersion c bdsType bdsPreview version now,
            refreshLaunched := false, syncFetches := 1 }
      | .error msg =>
          { ret := .error msg, cache := c,
            refreshLaunched := false, syncFetches := 1 }

/-- The four platform and channel combinations iterated by
initializeCache and by the cache status endpoint. -/
def combinations : List (BdsType × Bool) :=
  [(.win, false), (.win, true), (.linux, false), (.linux, true)]

/-- One arm of the parallel fan-out of initializeCache: fetch the key,
cache on success, swallow (log only) on failure. -/
def initializeCacheStep (fetch : BdsType → Bool → Except String String)
    (time : BdsType → Bool → Nat) (c : CacheStore) (tp : BdsType × Bool) :
    CacheStore :=
  match fetch tp.1 tp.2 with
  | .ok version => setCachedVersion c tp.1 tp.2 version (time tp.1 tp.2)
  | .error _ => c

/-- initializeCache of utils.ts.  The JS code runs the four arms
concurrently and awaits Promise.all; the arms write distinct keys, so
the interleavings agree with this sequential fold.  Every arm catches
its own failure, so the whole function is total (never rejects). -/
def initializeCache (c : CacheStore)
    (fetch : BdsType → Bool → Except String String)
    (time : BdsType → Bool → Nat) : CacheStore :=
  combinations.foldl (initializeCacheStep fetch time) c

/-- One element of the entries array of GET /cache/status (index.ts).
The JS expression cachedVersion || null maps the empty string to null
as well, hence the isEmpty test. -/
structure CacheStatusEntry where
  type : String
  preview : Bool
  cached : Bool
  version : Option String
deriving DecidableEq, Repr

/-- Builds one status entry for a key, as the map body in the
/cache/status handler does. -/
def cacheStatusEntry (c : CacheStore) (bdsType : BdsType) (bdsPreview : Bool) :
    CacheStatusEntry :=
  let cachedVersion := getCachedVersion c bdsType bdsPreview
  { type := bdsTypeStr bdsType
    preview := bdsPreview
    cached := cachedVersion.isSome
    version :=
      match cachedVersion with
      | some v => if v.isEmpty then none else some v
      | none => none }

/-- The entries array of GET /cache/status. -/
def cacheStatusEntries (c : CacheStore) : List CacheStatusEntry :=
  combinations.map (fun tp => cacheStatusEntry c tp.1 tp.2)

/-- The JSON body of GET /cache/status; timestamp is the call time. -/
structure CacheStatusResponse where
  cacheDurationMs : Nat
  cacheDurationHours : Nat
  entries : List CacheStatusEntry
  timestamp : Nat
deriving DecidableEq, Repr

/-- The GET /cache/status handler of index.ts as a pure read of the
store at a call time. -/
def cacheStatus (c : CacheStore) (now : Nat) : CacheStatusResponse :=
  { cacheDurationMs := CACHE_DURATION_MS
    cacheDurationHours := CACHE_DURATION_MS / (1000 * 60 * 60)
    entries := cacheStatusEntries c
    timestamp := now }

/-- The JS String.prototype.toLowerCase, restricted to the simple ASCII
mapping.  No non-ASCII character lowercases (in JS) to any character of
the strings true, false, 1, 0, so parsePreviewParam computes the same
answer under this restriction as under full Unicode lowering. -/
def toLowerCase (s : String) : String :=
  String.mk (s.data.map Char.toLower)

/-- parsePreviewParam of utils.ts (the local binding lower of the
source is inlined). -/
def parsePreviewParam (preview : String) : Option Bool :=
  if toLowerCase preview = "true" ∨ toLowerCase preview = "1" then some true
  else if toLowerCase preview = "false" ∨ toLowerCase preview = "0" then
    some false
  else none

/-- isValidBdsType of utils.ts. -/
def isValidBdsType (type : String) : Bool :=
  type = "win" ∨ type = "linux"

section StoreLemmas

theorem lookupStore_insertStore_self (c : CacheStore) (k : String)
    (e : CacheEntry) : lookupStore (insertStore c k e) k = some e := by
  induction c with
  | nil => simp [insertStore, lookupStore]
  | cons hd tl ih =>
      obtain ⟨k₀, e₀⟩ := hd
      by_cases h : k₀ = k
      · simp [insertStore, lookupStore, h]
      · simp [insertStore, lookupStore, h, ih]

theorem lookupStore_insertStore_ne (c : CacheStore) (k k' : String)
    (e : CacheEntry) (h : k' ≠ k) :
    lookupStore (insertStore c k e) k' = lookupStore c k' := by
  induction c with
  | nil =>
      simp only [insertStore, lookupStore]
      rw [if_neg (fun hh => h hh.symm)]
  | cons hd tl ih =>
      obtain ⟨k₀, e₀⟩ := hd
      simp only [insertStore]
      by_cases h₀ : k₀ = k
      · subst h₀
        simp only [if_pos rfl, lookupStore]
        rw [if_neg (fun hh : k₀ = k' => h hh.symm),
          if_neg (fun hh : k₀ = k' => h hh.symm)]
      · simp only [if_neg h₀, lookupStore]
        by_cases h₁ : k₀ = k'
        · rw [if_pos h₁, if_pos h₁]
        · rw [if_neg h₁, if_neg h₁, ih]

end StoreLemmas

section LookupLemmas

theorem getCachedVersion_of_some {c : CacheStore} {t : BdsType} {p : Bool}
    {e : CacheEntry} (he : lookupStore c (getCacheKey t p) = some e) :
    getCachedVersion c t p = some e.version := by
  simp [getCachedVersion, he]

theorem getCachedVersion_of_none {c : CacheStore} {t : BdsType} {p : Bool}
    (he : lookupStore c (getCacheKey t p) = none) :
    getCachedVersion c t p = none := by
  simp [getCachedVersion, he]

theorem getCachedVersion_eq_none_iff (c : CacheStore) (t : BdsType)
    (p : Bool) :
    getCachedVersion c t p = none ↔ lookupStore c (getCacheKey t p) = none := by
  unfold getCachedVersion
  cases lookupStore c (getCacheKey t p) <;> simp

theorem checkAndRefreshCache_fresh {c : CacheStore} {t : BdsType} {p : Bool}
    {now : Nat} {e : CacheEntry} (he : lookupStore c (getCacheKey t p) = some e)
    (hv : isCacheValid now e = true) :
    checkAndRefreshCache c t p now = (c, false) := by
  simp [checkAndRefreshCache, he, hv]

theorem checkAndRefreshCache_stale_claim {c : CacheStore} {t : BdsType}
    {p : Bool} {now : Nat} {e : CacheEntry}
    (he : lookupStore c (getCacheKey t p) = some e)
    (hv : isCacheValid now e = false) (hr : e.refreshing = false) :
    checkAndRefreshCache c t p now =
      (insertStore c (getCacheKey t p) { e with refreshing := true }, true) := by
  simp [checkAndRefreshCache, refreshCacheEntryClaim, he, hv, hr]

theorem checkAndRefreshCache_stale_inflight {c : CacheStore} {t : BdsType}
    {p : Bool} {now : Nat} {e : CacheEntry}
    (he : lookupStore c (getCacheKey t p) = some e)
    (hv : isCacheValid now e = false) (hr : e.refreshing = true) :
    checkAndRefreshCache c t p now = (c, false) := by
  simp [checkAndRefreshCache, refreshCacheEntryClaim, he, hv, hr]

theorem checkAndRefreshCache_inflight {c : CacheStore} {t : BdsType}
    {p : Bool} (now : Nat) {e : CacheEntry}
    (he : lookupStore c (getCacheKey t p) = some e)
    (hr : e.refreshing = true) :
    checkAndRefreshCache c t p now = (c, false) := by
  by_cases hv : isCacheValid now e = true
  · exact checkAndRefreshCache_fresh he hv
  · exact checkAndRefreshCache_stale_inflight he (by simpa using hv) hr

theorem lookupLatestVersion_hit {c : CacheStore} {t : BdsType} {p : Bool}
    {e : CacheEntry} (now : Nat) (fetch : Except String String)
    (he : lookupStore c (getCacheKey t p) = some e) :
    lookupLatestVersion c t p now fetch =
      { ret := .ok e.version, cache := (checkAndRefreshCache c t p now).1,
        refreshLaunched := (checkAndRefreshCache c t p now).2,
        syncFetches := 0 } := by
  simp [lookupLatestVersion, getCachedVersion_of_some he]

theorem lookupLatestVersion_miss_ok {c : CacheStore} {t : BdsType} {p : Bool}
    (now : Nat) {v : String} (he : lookupStore c (getCacheKey t p) = none) :
    lookupLatestVersion c t p now (.ok v) =
      { ret := .ok v, cache := setCachedVersion c t p v now,
        refreshLaunched := false, syncFetches := 1 } := by
  simp [lookupLatestVersion, getCachedVersion_of_none he]

theorem lookupLatestVersion_miss_error {c : CacheStore} {t : BdsType}
    {p : Bool} (now : Nat) {msg : String}
    (he : lookupStore c (getCacheKey t p) = none) :
    lookupLatestVersion c t p now (.error msg) =
      { ret := .error msg, cache := c,
        refreshLaunched := false, syncFetches := 1 } := by
  simp [lookupLatestVersion, getCachedVersion_of_none he]

end LookupLemmas

/-- C6: freshness is the pure comparison now - fetchedAt < TTL with
TTL = 6 h = 21600000 ms, depending on nothing else in the entry: the
version string and the refreshing flag are irrelevant to it, and the
constant is fixed (config.ts). -/
theorem c6_freshness_pure_ttl (now : Nat) (e : CacheEntry) :
    (isCacheValid now e = true ↔ now - e.timestamp < 21600000) ∧
    CACHE_DURATION_MS = 21600000 ∧
    CACHE_DURATION_MS = 6 * 60 * 60 * 1000 ∧
    (∀ v r, isCacheValid now { e with version := v, refreshing := r } =
      isCacheValid now e) := by
  refine ⟨?_, by decide, by decide, ?_⟩
  · simp [isCacheValid, CACHE_DURATION_MS]
  · intro v r
    simp [isCacheValid]

/-- C10: parsePreviewParam answers some true exactly on the
case-insensitive spellings of true and 1, some false exactly on those of
false and 0, and none on everything else; it is a total function (never
throws) by construction. -/
theorem c10_parsePreviewParam_cases (s : String) :
    (parsePreviewParam s = some true ↔
      (toLowerCase s = "true" ∨ toLowerCase s = "1")) ∧
    (parsePreviewParam s = some false ↔
      (toLowerCase s = "false" ∨ toLowerCase s = "0")) ∧
    (parsePreviewParam s = none ↔
      ¬(toLowerCase s = "true" ∨ toLowerCase s = "1") ∧
      ¬(toLowerCase s = "false" ∨ toLowerCase s = "0")) ∧
    parsePreviewParam "TRUE" = some true ∧
    parsePreviewParam "FaLsE" = some false ∧
    parsePreviewParam "0" = some false ∧
    parsePreviewParam "yes" = none := by
  refine ⟨?_, ?_, ?_, by decide, by decide, by decide, by decide⟩
  · unfold parsePreviewParam
    split_ifs with h₁ h₂
    · simp [h₁]
    · simpa using h₁
    · simpa using h₁
  · unfold parsePreviewParam
    split_ifs with h₁ h₂
    · have hne : ¬(toLowerCase s = "false" ∨ toLowerCase s = "0") := by
        rcases h₁ with h | h <;> rw [h] <;> decide
      simpa using hne
    · simp [h₂]
    · simpa using h₂
  · unfold parsePreviewParam
    split_ifs with h₁ h₂
    · simp [h₁]
    · simp [h₂]
    · simp only [iff_true_intro h₁, iff_true_intro h₂]
      simp

/-- C1: a lookup fails exactly when no cached value exists and the
synchronous fetcher call fails; whenever a cached value exists the
lookup returns it, whatever the fetcher outcome would be; and a failed
background refresh is never propagated: a lookup issued after a failed
refresh completion still succeeds with the cached version. -/
theorem c1_lookup_fails_only_on_miss (c : CacheStore) (t : BdsType) (p : Bool)
    (now : Nat) (fetch : Except String String) :
    (∀ msg, (lookupLatestVersion c t p now fetch).ret = .error msg →
      getCachedVersion c t p = none ∧ fetch = .error msg) ∧
    (∀ v, getCachedVersion c t p = some v →
      (lookupLatestVersion c t p now fetch).ret = .ok v) ∧
    (∀ e emsg now₂, lookupStore c (getCacheKey t p) = some e →
      (lookupLatestVersion (refreshCacheEntryComplete c t p (.error emsg) now₂)
        t p now fetch).ret = .ok e.version) := by
  refine ⟨?_, ?_, ?_⟩
  · intro msg hret
    cases hs : lookupStore c (getCacheKey t p) with
    | some e =>
        rw [lookupLatestVersion_hit now fetch hs] at hret
        exact absurd hret (by simp)
    | none =>
        refine ⟨getCachedVersion_of_none hs, ?_⟩
        cases hf : fetch with
        | ok v =>
            rw [hf, lookupLatestVersion_miss_ok now hs] at hret
            exact absurd hret (by simp)
        | error m =>
            rw [hf, lookupLatestVersion_miss_error now hs] at hret
            simp only [Except.error.injEq] at hret
            rw [hret]
  · intro v hv
    cases hs : lookupStore c (getCacheKey t p) with
    | some e =>
        rw [getCachedVersion_of_some hs] at hv
        rw [lookupLatestVersion_hit now fetch hs]
        simpa using hv
    | none => exact absurd hv (by rw [getCachedVersion_of_none hs]; simp)
  · intro e emsg now₂ hs
    have hcomplete : refreshCacheEntryComplete c t p (.error emsg) now₂ =
        insertStore c (getCacheKey t p) { e with refreshing := false } := by
      simp [refreshCacheEntryComplete, hs]
    rw [hcomplete,
      lookupLatestVersion_hit now fetch
        (lookupStore_insertStore_self c (getCacheKey t p)
          { e with refreshing := false })]

/-- Witness for C1 at a concrete store: after a failed background
refresh completion, a lookup still returns the previously cached
version. -/
theorem c1_lookup_fails_only_on_miss_witness :
    (lookupLatestVersion
      (refreshCacheEntryComplete
        [(getCacheKey BdsType.win false,
          { version := "1.0.0.0", timestamp := 0, refreshing := true })]
        BdsType.win false (.error "boom") 7)
      BdsType.win false 9 (.ok "x")).ret = .ok "1.0.0.0" :=
  (c1_lookup_fails_only_on_miss
    [(getCacheKey BdsType.win false,
      { version := "1.0.0.0", timestamp := 0, refreshing := true })]
    BdsType.win false 9 (.ok "x")).2.2
    { version := "1.0.0.0", timestamp := 0, refreshing := true }
    "boom" 7 (by decide)

/-- C2: on a key never fetched (no cache entry), lookup makes exactly
one synchronous fetcher call; on success it caches the fetched version
and returns it, and both getCachedVersion and the status surface then
report the key as cached with that version (the status version field
needs the fetched string nonempty, which the fetcher contract
guarantees: it only produces dotted-numeral versions); on failure the
error propagates, the store is unchanged and no entry is created. -/
theorem c2_first_fetch (c : CacheStore) (t : BdsType) (p : Bool) (now : Nat)
    (fetch : Except String String)
    (hmiss : getCachedVersion c t p = none) :
    (lookupLatestVersion c t p now fetch).syncFetches = 1 ∧
    (∀ v, fetch = .ok v →
      (lookupLatestVersion c t p now fetch).ret = .ok v ∧
      getCachedVersion (lookupLatestVersion c t p now fetch).cache t p =
        some v ∧
      (cacheStatusEntry (lookupLatestVersion c t p now fetch).cache t p).cached
        = true ∧
      (v ≠ "" →
        (cacheStatusEntry (lookupLatestVersion c t p now fetch).cache t
          p).version = some v)) ∧
    (∀ msg, fetch = .error msg →
      (lookupLatestVersion c t p now fetch).ret = .error msg ∧
      (lookupLatestVersion c t p now fetch).cache = c ∧
      lookupStore (lookupLatestVersion c t p now fetch).cache
        (getCacheKey t p) = none) := by
  have hs : lookupStore c (getCacheKey t p) = none :=
    (getCachedVersion_eq_none_iff c t p).mp hmiss
  refine ⟨?_, ?_, ?_⟩
  · cases hf : fetch with
    | ok v => rw [lookupLatestVersion_miss_ok now hs]
    | error m => rw [lookupLatestVersion_miss_error now hs]
  · intro v hf
    subst hf
    rw [lookupLatestVersion_miss_ok now hs]
    have hself : lookupStore (setCachedVersion c t p v now) (getCacheKey t p)
        = some { version := v, timestamp := now, refreshing := false } :=
      lookupStore_insertStore_self c (getCacheKey t p)
        { version := v, timestamp := now, refreshing := false }
    have hget : getCachedVersion (setCachedVersion c t p v now) t p = some v :=
      getCachedVersion_of_some hself
    refine ⟨rfl, hget, ?_, ?_⟩
    · simp [cacheStatusEntry, hget]
    · intro hv
      have : v.isEmpty = false := by
        rcases hb : v.isEmpty with _ | _
        · rfl
        · exact absurd ((String.isEmpty_iff v).mp hb) hv
      simp [cacheStatusEntry, hget, this]
  · intro msg hf
    subst hf
    rw [lookupLatestVersion_miss_error now hs]
    exact ⟨rfl, rfl, hs⟩

/-- Witness for C2 on the empty store: one synchronous fetch, the value
is cached and reported by the status entry. -/
theorem c2_first_fetch_witness :
    getCachedVersion [] BdsType.win false = none ∧
    (lookupLatestVersion [] BdsType.win false 0 (.ok "1.21.84.1")).syncFetches
      = 1 ∧
    (lookupLatestVersion [] BdsType.win false 0 (.ok "1.21.84.1")).ret =
      .ok "1.21.84.1" ∧
    getCachedVersion
      (lookupLatestVersion [] BdsType.win false 0 (.ok "1.21.84.1")).cache
      BdsType.win false = some "1.21.84.1" :=
  ⟨by decide,
   (c2_first_fetch [] BdsType.win false 0 (.ok "1.21.84.1") (by decide)).1,
   ((c2_first_fetch [] BdsType.win false 0 (.ok "1.21.84.1")
      (by decide)).2.1 "1.21.84.1" rfl).1,
   ((c2_first_fetch [] BdsType.win false 0 (.ok "1.21.84.1")
      (by decide)).2.1 "1.21.84.1" rfl).2.1⟩

/-- C3: on a fresh entry the lookup returns the stored version, makes no
synchronous fetcher call, launches no background refresh, and leaves the
store untouched. -/
theorem c3_fresh_hit_no_fetcher (c : CacheStore) (t : BdsType) (p : Bool)
    (now : Nat) (fetch : Except String String) (e : CacheEntry)
    (he : lookupStore c (getCacheKey t p) = some e)
    (hfresh : isCacheValid now e = true) :
    (lookupLatestVersion c t p now fetch).ret = .ok e.version ∧
    (lookupLatestVersion c t p now fetch).syncFetches = 0 ∧
    (lookupLatestVersion c t p now fetch).refreshLaunched = false ∧
    (lookupLatestVersion c t p now fetch).cache = c := by
  rw [lookupLatestVersion_hit now fetch he, checkAndRefreshCache_fresh he hfresh]
  exact ⟨rfl, rfl, rfl, rfl⟩

/-- Witness for C3 at a concrete fresh entry. -/
theorem c3_fresh_hit_no_fetcher_witness :
    lookupStore
      [(getCacheKey BdsType.win false,
        { version := "1.0.0.0", timestamp := 0, refreshing := false })]
      (getCacheKey BdsType.win false) =
      some { version := "1.0.0.0", timestamp := 0, refreshing := false } ∧
    isCacheValid 5
      { version := "1.0.0.0", timestamp := 0, refreshing := false } = true ∧
    (lookupLatestVersion
      [(getCacheKey BdsType.win false,
        { version := "1.0.0.0", timestamp := 0, refreshing := false })]
      BdsType.win false 5 (.ok "x")).refreshLaunched = false :=
  ⟨by decide, by decide,
   (c3_fresh_hit_no_fetcher
     [(getCacheKey BdsType.win false,
       { version := "1.0.0.0", timestamp := 0, refreshing := false })]
     BdsType.win false 5 (.ok "x")
     { version := "1.0.0.0", timestamp := 0, refreshing := false }
     (by decide) (by decide)).2.2.1⟩

/-- C4: single-flight.  A lookup on a stale, not-currently-refreshing
entry returns the old version with no synchronous fetch and launches
exactly one background fetch, marking the entry refreshing; while that
refresh is outstanding (no completion step in between), any second
lookup for the same key returns the same old version, makes no
synchronous fetch, launches no additional background fetch and leaves
the store unchanged, and a direct refresh trigger launches nothing
either. -/
theorem c4_single_flight (c : CacheStore) (t : BdsType) (p : Bool)
    (now now₂ now₃ : Nat) (fetch fetch₂ : Except String String)
    (e : CacheEntry)
    (he : lookupStore c (getCacheKey t p) = some e)
    (hstale : isCacheValid now e = false)
    (hidle : e.refreshing = false) :
    (lookupLatestVersion c t p now fetch).ret = .ok e.version ∧
    (lookupLatestVersion c t p now fetch).syncFetches = 0 ∧
    (lookupLatestVersion c t p now fetch).refreshLaunched = true ∧
    (lookupLatestVersion (lookupLatestVersion c t p now fetch).cache t p now₂
      fetch₂).ret = .ok e.version ∧
    (lookupLatestVersion (lookupLatestVersion c t p now fetch).cache t p now₂
      fetch₂).syncFetches = 0 ∧
    (lookupLatestVersion (lookupLatestVersion c t p now fetch).cache t p now₂
      fetch₂).refreshLaunched = false ∧
    (lookupLatestVersion (lookupLatestVersion c t p now fetch).cache t p now₂
      fetch₂).cache = (lookupLatestVersion c t p now fetch).cache ∧
    (checkAndRefreshCache (lookupLatestVersion c t p now fetch).cache t p
      now₃).2 = false := by
  have h1 := lookupLatestVersion_hit now fetch he
  have hclaim := checkAndRefreshCache_stale_claim he hstale hidle
  have hcache : (lookupLatestVersion c t p now fetch).cache =
      insertStore c (getCacheKey t p) { e with refreshing := true } := by
    rw [h1, hclaim]
  have he₂ : lookupStore (lookupLatestVersion c t p now fetch).cache
      (getCacheKey t p) = some { e with refreshing := true } := by
    rw [hcache]
    exact lookupStore_insertStore_self c (getCacheKey t p)
      { e with refreshing := true }
  have hinflight : ∀ n, checkAndRefreshCache
      (lookupLatestVersion c t p now fetch).cache t p n =
      ((lookupLatestVersion c t p now fetch).cache, false) :=
    fun n => checkAndRefreshCache_inflight n he₂ rfl
  refine ⟨by rw [h1], by rw [h1], by rw [h1, hclaim], ?_, ?_, ?_, ?_,
    by rw [hinflight now₃]⟩
  all_goals rw [lookupLatestVersion_hit now₂ fetch₂ he₂, hinflight now₂]

/-- Witness for C4 at a concrete stale entry: the first lookup launches
the one background fetch, the second launches none. -/
theorem c4_single_flight_witness :
    lookupStore
      [(getCacheKey BdsType.linux true,
        { version := "1.0.0.0", timestamp := 0, refreshing := false })]
      (getCacheKey BdsType.linux true) =
      some { version := "1.0.0.0", timestamp := 0, refreshing := false } ∧
    isCacheValid 21600000
      { version := "1.0.0.0", timestamp := 0, refreshing := false } = false ∧
    (lookupLatestVersion
      [(getCacheKey BdsType.linux true,
        { version := "1.0.0.0", timestamp := 0, refreshing := false })]
      BdsType.linux true 21600000 (.ok "x")).refreshLaunched = true ∧
    (lookupLatestVersion
      (lookupLatestVersion
        [(getCacheKey BdsType.linux true,
          { version := "1.0.0.0", timestamp := 0, refreshing := false })]
        BdsType.linux true 21600000 (.ok "x")).cache
      BdsType.linux true 21600001 (.ok "y")).refreshLaunched = false :=
  ⟨by decide, by decide,
   (c4_single_flight
     [(getCacheKey BdsType.linux true,
       { version := "1.0.0.0", timestamp := 0, refreshing := false })]
     BdsType.linux true 21600000 21600001 0 (.ok "x") (.ok "y")
     { version := "1.0.0.0", timestamp := 0, refreshing := false }
     (by decide) (by decide) (by decide)).2.2.1,
   (c4_single_flight
     [(getCacheKey BdsType.linux true,
       { version := "1.0.0.0", timestamp := 0, refreshing := false })]
     BdsType.linux true 21600000 21600001 0 (.ok "x") (.ok "y")
     { version := "1.0.0.0", timestamp := 0, refreshing := false }
     (by decide) (by decide) (by decide)).2.2.2.2.2.1⟩

/-- C5: a failed background refresh completion leaves version and
timestamp of the entry exactly as they were, clears the refreshing flag,
touches no other key, keeps the version readable, and the next
stale-triggering lookup for the key makes no synchronous fetch and
launches exactly one new background fetch. -/
theorem c5_failed_refresh_preserves_entry (c : CacheStore) (t : BdsType)
    (p : Bool) (msg : String) (now : Nat) (e : CacheEntry)
    (he : lookupStore c (getCacheKey t p) = some e) :
    lookupStore (refreshCacheEntryComplete c t p (.error msg) now)
      (getCacheKey t p) = some { e with refreshing := false } ∧
    (∀ k, k ≠ getCacheKey t p →
      lookupStore (refreshCacheEntryComplete c t p (.error msg) now) k =
        lookupStore c k) ∧
    getCachedVersion (refreshCacheEntryComplete c t p (.error msg) now) t p =
      some e.version ∧
    (∀ now₂ fetch₂, isCacheValid now₂ e = false →
      (lookupLatestVersion (refreshCacheEntryComplete c t p (.error msg) now)
        t p now₂ fetch₂).ret = .ok e.version ∧
      (lookupLatestVersion (refreshCacheEntryComplete c t p (.error msg) now)
        t p now₂ fetch₂).syncFetches = 0 ∧
      (lookupLatestVersion (refreshCacheEntryComplete c t p (.error msg) now)
        t p now₂ fetch₂).refreshLaunched = true) := by
  have hcomplete : refreshCacheEntryComplete c t p (.error msg) now =
      insertStore c (getCacheKey t p) { e with refreshing := false } := by
    simp [refreshCacheEntryComplete, he]
  have hself : lookupStore (refreshCacheEntryComplete c t p (.error msg) now)
      (getCacheKey t p) = some { e with refreshing := false } := by
    rw [hcomplete]
    exact lookupStore_insertStore_self c (getCacheKey t p)
      { e with refreshing := false }
  have hget : getCachedVersion (refreshCacheEntryComplete c t p (.error msg)
      now) t p = some e.version := by
    have h := getCachedVersion_of_some hself
    simpa using h
  refine ⟨hself, ?_, hget, ?_⟩
  · intro k hk
    rw [hcomplete]
    exact lookupStore_insertStore_ne c (getCacheKey t p) k
      { e with refreshing := false } hk
  · intro now₂ fetch₂ hstale
    have hstale₂ : isCacheValid now₂ { e with refreshing := false } = false :=
      hstale
    rw [lookupLatestVersion_hit now₂ fetch₂ hself,
      checkAndRefreshCache_stale_claim hself hstale₂ rfl]
    exact ⟨rfl, rfl, rfl⟩

/-- Witness for C5 at a concrete entry: the failed completion clears the
flag and keeps the version, and the next stale lookup relaunches exactly
one background fetch. -/
theorem c5_failed_refresh_preserves_entry_witness :
    lookupStore
      [(getCacheKey BdsType.win true,
        { version := "1.2.3.4", timestamp := 5, refreshing := true })]
      (getCacheKey BdsType.win true) =
      some { version := "1.2.3.4", timestamp := 5, refreshing := true } ∧
    lookupStore
      (refreshCacheEntryComplete
        [(getCacheKey BdsType.win true,
          { version := "1.2.3.4", timestamp := 5, refreshing := true })]
        BdsType.win true (.error "down") 9)
      (getCacheKey BdsType.win true) =
      some { version := "1.2.3.4", timestamp := 5, refreshing := false } ∧
    isCacheValid 21700000
      { version := "1.2.3.4", timestamp := 5, refreshing := true } = false ∧
    (lookupLatestVersion
      (refreshCacheEntryComplete
        [(getCacheKey BdsType.win true,
          { version := "1.2.3.4", timestamp := 5, refreshing := true })]
        BdsType.win true (.error "down") 9)
      BdsType.win true 21700000 (.ok "z")).refreshLaunched = true :=
  ⟨by decide,
   (c5_failed_refresh_preserves_entry
     [(getCacheKey BdsType.win true,
       { version := "1.2.3.4", timestamp := 5, refreshing := true })]
     BdsType.win true "down" 9
     { version := "1.2.3.4", timestamp := 5, refreshing := true }
     (by decide)).1,
   by decide,
   ((c5_failed_refresh_preserves_entry
     [(getCacheKey BdsType.win true,
       { version := "1.2.3.4", timestamp := 5, refreshing := true })]
     BdsType.win true "down" 9
     { version := "1.2.3.4", timestamp := 5, refreshing := true }
     (by decide)).2.2.2 21700000 (.ok "z") (by decide)).2.2⟩

section InitLemmas

theorem getCachedVersion_initializeCacheStep_ne
    (fetch : BdsType → Bool → Except String String)
    (time : BdsType → Bool → Nat) (c : CacheStore) (tp : BdsType × Bool)
    (t : BdsType) (p : Bool) (hne : getCacheKey t p ≠ getCacheKey tp.1 tp.2) :
    getCachedVersion (initializeCacheStep fetch time c tp) t p =
      getCachedVersion c t p := by
  unfold initializeCacheStep
  cases fetch tp.1 tp.2 with
  | ok v =>
      unfold getCachedVersion setCachedVersion
      rw [lookupStore_insertStore_ne c (getCacheKey tp.1 tp.2)
        (getCacheKey t p) _ hne]
  | error m => rfl

theorem getCachedVersion_initializeCacheStep_ok
    (fetch : BdsType → Bool → Except String String)
    (time : BdsType → Bool → Nat) (c : CacheStore) (t : BdsType) (p : Bool)
    (v : String) (hok : fetch t p = .ok v) :
    getCachedVersion (initializeCacheStep fetch time c (t, p)) t p = some v := by
  unfold initializeCacheStep
  rw [hok]
  exact getCachedVersion_of_some (lookupStore_insertStore_self c
    (getCacheKey t p) { version := v, timestamp := time t p, refreshing := false })

theorem getCachedVersion_initializeCacheStep_error
    (fetch : BdsType → Bool → Except String String)
    (time : BdsType → Bool → Nat) (c : CacheStore) (t : BdsType) (p : Bool)
    (msg : String) (herr : fetch t p = .error msg) :
    getCachedVersion (initializeCacheStep fetch time c (t, p)) t p =
      getCachedVersion c t p := by
  unfold initializeCacheStep
  rw [herr]

theorem getCachedVersion_foldl_ne
    (fetch : BdsType → Bool → Except String String)
    (time : BdsType → Bool → Nat) (t : BdsType) (p : Bool)
    (l : List (BdsType × Bool)) (c : CacheStore)
    (h : ∀ tp ∈ l, getCacheKey t p ≠ getCacheKey tp.1 tp.2) :
    getCachedVersion (l.foldl (initializeCacheStep fetch time) c) t p =
      getCachedVersion c t p := by
  induction l generalizing c with
  | nil => rfl
  | cons hd tl ih =>
      rw [List.foldl_cons]
      rw [ih (initializeCacheStep fetch time c hd)
        (fun tp htp => h tp (List.mem_cons_of_mem hd htp))]
      exact getCachedVersion_initializeCacheStep_ne fetch time c hd t p
        (h hd (List.mem_cons_self hd tl))

end InitLemmas

/-- C7: warm-up failure isolation.  initializeCache covers the four
platform and channel combinations; for each key independently, a
successful fetch populates the entry with the fetched version and a
failed fetch leaves that key exactly as it was, whatever the other three
fetches do.  The function is total, so the warm-up always completes
(never rejects) however many arms fail. -/
theorem c7_initializeCache_isolation (c : CacheStore)
    (fetch : BdsType → Bool → Except String String)
    (time : BdsType → Bool → Nat) (t : BdsType) (p : Bool) :
    (∀ v, fetch t p = .ok v →
      getCachedVersion (initializeCache c fetch time) t p = some v) ∧
    (∀ msg, fetch t p = .error msg →
      getCachedVersion (initializeCache c fetch time) t p =
        getCachedVersion c t p) := by
  have hwf : initializeCache c fetch time =
      List.foldl (initializeCacheStep fetch time)
        (initializeCacheStep fetch time c (.win, false))
        [(.win, true), (.linux, false), (.linux, true)] := rfl
  have hwt : initializeCache c fetch time =
      List.foldl (initializeCacheStep fetch time)
        (initializeCacheStep fetch time
          (initializeCacheStep fetch time c (.win, false)) (.win, true))
        [(.linux, false), (.linux, true)] := rfl
  have hlf : initializeCache c fetch time =
      List.foldl (initializeCacheStep fetch time)
        (initializeCacheStep fetch time
          (initializeCacheStep fetch time
            (initializeCacheStep fetch time c (.win, false)) (.win, true))
          (.linux, false))
        [(.linux, true)] := rfl
  have hlt : initializeCache c fetch time =
      initializeCacheStep fetch time
        (initializeCacheStep fetch time
          (initializeCacheStep fetch time
            (initializeCacheStep fetch time c (.win, false)) (.win, true))
          (.linux, false))
        (.linux, true) := rfl
  have hwfpre : ∀ c₀, getCachedVersion
      (List.foldl (initializeCacheStep fetch time) c₀
        [(BdsType.win, true), (BdsType.linux, false), (BdsType.linux, true)])
      BdsType.win false = getCachedVersion c₀ BdsType.win false :=
    fun c₀ => getCachedVersion_foldl_ne fetch time BdsType.win false _ c₀
      (by decide)
  have hwtpre : ∀ c₀, getCachedVersion
      (List.foldl (initializeCacheStep fetch time) c₀
        [(BdsType.linux, false), (BdsType.linux, true)])
      BdsType.win true = getCachedVersion c₀ BdsType.win true :=
    fun c₀ => getCachedVersion_foldl_ne fetch time BdsType.win true _ c₀
      (by decide)
  have hlfpre : ∀ c₀, getCachedVersion
      (List.foldl (initializeCacheStep fetch time) c₀
        [(BdsType.linux, true)])
      BdsType.linux false = getCachedVersion c₀ BdsType.linux false :=
    fun c₀ => getCachedVersion_foldl_ne fetch time BdsType.linux false _ c₀
      (by decide)
  constructor
  · intro v hok
    cases t with
    | win =>
        cases p with
        | false =>
            rw [hwf, hwfpre]
            exact getCachedVersion_initializeCacheStep_ok fetch time c
              BdsType.win false v hok
        | true =>
            rw [hwt, hwtpre]
            exact getCachedVersion_initializeCacheStep_ok fetch time _
              BdsType.win true v hok
    | linux =>
        cases p with
        | false =>
            rw [hlf, hlfpre]
            exact getCachedVersion_initializeCacheStep_ok fetch time _
              BdsType.linux false v hok
        | true =>
            rw [hlt]
            exact getCachedVersion_initializeCacheStep_ok fetch time _
              BdsType.linux true v hok
  · intro msg herr
    cases t with
    | win =>
        cases p with
        | false =>
            rw [hwf, hwfpre]
            exact getCachedVersion_initializeCacheStep_error fetch time c
              BdsType.win false msg herr
        | true =>
            rw [hwt, hwtpre]
            rw [getCachedVersion_initializeCacheStep_error fetch time _
              BdsType.win true msg herr]
            exact getCachedVersion_initializeCacheStep_ne fetch time c
              (BdsType.win, false) BdsType.win true (by decide)
    | linux =>
        cases p with
        | false =>
            rw [hlf, hlfpre]
            rw [getCachedVersion_initializeCacheStep_error fetch time _
              BdsType.linux false msg herr]
            rw [getCachedVersion_initializeCacheStep_ne fetch time _
              (BdsType.win, true) BdsType.linux false (by decide)]
            exact getCachedVersion_initializeCacheStep_ne fetch time c
              (BdsType.win, false) BdsType.linux false (by decide)
        | true =>
            rw [hlt]
            rw [getCachedVersion_initializeCacheStep_error fetch time _
              BdsType.linux true msg herr]
            rw [getCachedVersion_initializeCacheStep_ne fetch time _
              (BdsType.linux, false) BdsType.linux true (by decide)]
            rw [getCachedVersion_initializeCacheStep_ne fetch time _
              (BdsType.win, true) BdsType.linux true (by decide)]
            exact getCachedVersion_initializeCacheStep_ne fetch time c
              (BdsType.win, false) BdsType.linux true (by decide)

/-- Witness for C7: with the win stable arm failing and the others
succeeding, the three other keys are populated and the failing key stays
absent on the empty starting store. -/
theorem c7_initializeCache_isolation_witness :
    (fun (t : BdsType) (p : Bool) =>
      if t = BdsType.win ∧ p = false then (.error "down" : Except String String)
      else .ok "2.0.0.0") BdsType.win true = .ok "2.0.0.0" ∧
    getCachedVersion
      (initializeCache []
        (fun t p =>
          if t = BdsType.win ∧ p = false then .error "down" else .ok "2.0.0.0")
        (fun _ _ => 0))
      BdsType.win true = some "2.0.0.0" ∧
    (fun (t : BdsType) (p : Bool) =>
      if t = BdsType.win ∧ p = false then (.error "down" : Except String String)
      else .ok "2.0.0.0") BdsType.win false = .error "down" ∧
    getCachedVersion
      (initializeCache []
        (fun t p =>
          if t = BdsType.win ∧ p = false then .error "down" else .ok "2.0.0.0")
        (fun _ _ => 0))
      BdsType.win false = getCachedVersion [] BdsType.win false :=
  ⟨rfl,
   (c7_initializeCache_isolation []
     (fun t p =>
       if t = BdsType.win ∧ p = false then .error "down" else .ok "2.0.0.0")
     (fun _ _ => 0) BdsType.win true).1 "2.0.0.0" rfl,
   rfl,
   (c7_initializeCache_isolation []
     (fun t p =>
       if t = BdsType.win ∧ p = false then .error "down" else .ok "2.0.0.0")
     (fun _ _ => 0) BdsType.win false).2 "down" rfl⟩

/-- Counterexample to C8 as stated: two status calls with no intervening
lookup do not return identical output, because the response carries a
timestamp field set to the call time. -/
theorem c8_status_not_identical_counterexample :
    cacheStatus [] 0 ≠ cacheStatus [] 1 := by decide

/-- C8 amended: repeated status calls without intervening lookups agree
on the TTL fields and the entries array; the outputs are fully identical
exactly when the two call times coincide, the timestamp field being the
only time-dependent part.  The handler is embedded as a pure function of
the store, so a call has no side effect on the cache by construction. -/
theorem c8_status_pure_and_stable (c : CacheStore) (n₁ n₂ : Nat) :
    (cacheStatus c n₁).cacheDurationMs = (cacheStatus c n₂).cacheDurationMs ∧
    (cacheStatus c n₁).cacheDurationHours =
      (cacheStatus c n₂).cacheDurationHours ∧
    (cacheStatus c n₁).entries = (cacheStatus c n₂).entries ∧
    (cacheStatus c n₁).entries = cacheStatusEntries c ∧
    (cacheStatus c n₁ = cacheStatus c n₂ ↔ n₁ = n₂) := by
  refine ⟨rfl, rfl, rfl, rfl, ?_, ?_⟩
  · intro h
    exact congrArg CacheStatusResponse.timestamp h
  · intro h
    rw [h]

/-- One scheduler step of the running service, as it affects the cache:
the synchronous part of one request lookup, the completion of one
background refresh, or one warm-up arm.  The outcome the external
fetcher would deliver is carried by the action. -/
inductive SysAction where
  | lookupReq (t : BdsType) (p : Bool) (now : Nat)
      (fetch : Except String String)
  | refreshDone (t : BdsType) (p : Bool) (res : Except String String)
      (now : Nat)
  | warmKey (t : BdsType) (p : Bool) (res : Except String String) (now : Nat)

/-- Effect of one step on the store. -/
def applyAction (c : CacheStore) : SysAction → CacheStore
  | .lookupReq t p now fetch => (lookupLatestVersion c t p now fetch).cache
  | .refreshDone t p res now => refreshCacheEntryComplete c t p res now
  | .warmKey t p res now =>
      match res with
      | .ok v => setCachedVersion c t p v now
      | .error _ => c

/-- The step writes key k through a successful fetch: the miss path of a
lookup whose synchronous fetch succeeds, a successful refresh
completion, or a successful warm-up arm, each for that key. -/
def successfulFetchWrite (c : CacheStore) (a : SysAction) (k : String) : Prop :=
  match a with
  | .lookupReq t p _ fetch =>
      k = getCacheKey t p ∧ getCachedVersion c t p = none ∧
        ∃ v, fetch = .ok v
  | .refreshDone t p res _ => k = getCacheKey t p ∧ ∃ v, res = .ok v
  | .warmKey t p res _ => k = getCacheKey t p ∧ ∃ v, res = .ok v

section LifecycleLemmas

theorem lookupStore_update_refreshing (c : CacheStore) (key : String)
    (e₀ : CacheEntry) (b : Bool) (h : lookupStore c key = some e₀)
    (k : String) :
    (lookupStore c k = none →
      lookupStore (insertStore c key { e₀ with refreshing := b }) k = none) ∧
    (∀ e, lookupStore c k = some e →
      ∃ e₂, lookupStore (insertStore c key { e₀ with refreshing := b }) k =
        some e₂ ∧ e₂.version = e.version ∧ e₂.timestamp = e.timestamp) := by
  by_cases hk : k = key
  · subst hk
    constructor
    · intro hn
      rw [hn] at h
      exact absurd h (by simp)
    · intro e hsome
      rw [h] at hsome
      injection hsome with he
      exact ⟨{ e₀ with refreshing := b },
        lookupStore_insertStore_self c k { e₀ with refreshing := b },
        by rw [he], by rw [he]⟩
  · constructor
    · intro hn
      rw [lookupStore_insertStore_ne c key k { e₀ with refreshing := b } hk]
      exact hn
    · intro e hsome
      refine ⟨e, ?_, rfl, rfl⟩
      rw [lookupStore_insertStore_ne c key k { e₀ with refreshing := b } hk]
      exact hsome

theorem lifecycle_unchanged (c : CacheStore) (a : SysAction) (k : String)
    (h : applyAction c a = c) :
    (∀ e₂, lookupStore c k = none →
      lookupStore (applyAction c a) k = some e₂ →
      successfulFetchWrite c a k) ∧
    (∀ e, lookupStore c k = some e →
      ∃ e₂, lookupStore (applyAction c a) k = some e₂) ∧
    (∀ e e₂, lookupStore c k = some e →
      lookupStore (applyAction c a) k = some e₂ →
      e₂.version ≠ e.version ∨ e₂.timestamp ≠ e.timestamp →
      successfulFetchWrite c a k) := by
  rw [h]
  refine ⟨?_, ?_, ?_⟩
  · intro e₂ hn h₂
    rw [hn] at h₂
    exact absurd h₂ (by simp)
  · intro e he
    exact ⟨e, he⟩
  · intro e e₂ he h₂ hne
    rw [he] at h₂
    injection h₂ with h₂
    subst h₂
    rcases hne with hne | hne <;> exact absurd rfl hne

theorem lifecycle_refreshing_update (c : CacheStore) (a : SysAction)
    (k : String) (t : BdsType) (p : Bool) (e₀ : CacheEntry) (b : Bool)
    (hs : lookupStore c (getCacheKey t p) = some e₀)
    (h : applyAction c a =
      insertStore c (getCacheKey t p) { e₀ with refreshing := b }) :
    (∀ e₂, lookupStore c k = none →
      lookupStore (applyAction c a) k = some e₂ →
      successfulFetchWrite c a k) ∧
    (∀ e, lookupStore c k = some e →
      ∃ e₂, lookupStore (applyAction c a) k = some e₂) ∧
    (∀ e e₂, lookupStore c k = some e →
      lookupStore (applyAction c a) k = some e₂ →
      e₂.version ≠ e.version ∨ e₂.timestamp ≠ e.timestamp →
      successfulFetchWrite c a k) := by
  rw [h]
  have hu := lookupStore_update_refreshing c (getCacheKey t p) e₀ b hs k
  refine ⟨?_, ?_, ?_⟩
  · intro e₂ hn h₂
    rw [hu.1 hn] at h₂
    exact absurd h₂ (by simp)
  · intro e he
    obtain ⟨e₂, h₂, hver, hts⟩ := hu.2 e he
    exact ⟨e₂, h₂⟩
  · intro e e₂ he h₂ hne
    obtain ⟨e₃, h₃, hver, hts⟩ := hu.2 e he
    rw [h₃] at h₂
    injection h₂ with h₂
    subst h₂
    rcases hne with hne | hne
    · exact absurd hver hne
    · exact absurd hts hne

theorem lifecycle_set (c : CacheStore) (a : SysAction) (k : String)
    (t : BdsType) (p : Bool) (v : String) (now : Nat)
    (h : applyAction c a = setCachedVersion c t p v now)
    (hw : k = getCacheKey t p → successfulFetchWrite c a k) :
    (∀ e₂, lookupStore c k = none →
      lookupStore (applyAction c a) k = some e₂ →
      successfulFetchWrite c a k) ∧
    (∀ e, lookupStore c k = some e →
      ∃ e₂, lookupStore (applyAction c a) k = some e₂) ∧
    (∀ e e₂, lookupStore c k = some e →
      lookupStore (applyAction c a) k = some e₂ →
      e₂.version ≠ e.version ∨ e₂.timestamp ≠ e.timestamp →
      successfulFetchWrite c a k) := by
  have hset : setCachedVersion c t p v now =
      insertStore c (getCacheKey t p)
        { version := v, timestamp := now, refreshing := false } := rfl
  rw [h, hset]
  by_cases hk : k = getCacheKey t p
  · refine ⟨fun e₂ hn h₂ => hw hk, ?_, fun e e₂ he h₂ hne => hw hk⟩
    intro e he
    subst hk
    exact ⟨{ version := v, timestamp := now, refreshing := false },
      lookupStore_insertStore_self c (getCacheKey t p)
        { version := v, timestamp := now, refreshing := false }⟩
  · have hkeep : lookupStore
        (insertStore c (getCacheKey t p)
          { version := v, timestamp := now, refreshing := false }) k =
        lookupStore c k :=
      lookupStore_insertStore_ne c (getCacheKey t p) k
        { version := v, timestamp := now, refreshing := false } hk
    rw [hkeep]
    refine ⟨?_, ?_, ?_⟩
    · intro e₂ hn h₂
      rw [hn] at h₂
      exact absurd h₂ (by simp)
    · intro e he
      exact ⟨e, he⟩
    · intro e e₂ he h₂ hne
      rw [he] at h₂
      injection h₂ with h₂
      subst h₂
      rcases hne with hne | hne <;> exact absurd rfl hne

end LifecycleLemmas

/-- C9: entry lifecycle invariant, preserved by every step (request
lookup, refresh completion, warm-up arm).  An entry is created for a key
only by a successful fetch for that key while the key was absent; no
step ever deletes an entry; and whenever the version or the timestamp of
an entry changes across a step, that step was a successful fetch for the
key — flag-only updates and failed fetches never touch those fields. -/
theorem c9_entry_lifecycle (c : CacheStore) (a : SysAction) (k : String) :
    (∀ e₂, lookupStore c k = none →
      lookupStore (applyAction c a) k = some e₂ →
      successfulFetchWrite c a k) ∧
    (∀ e, lookupStore c k = some e →
      ∃ e₂, lookupStore (applyAction c a) k = some e₂) ∧
    (∀ e e₂, lookupStore c k = some e →
      lookupStore (applyAction c a) k = some e₂ →
      e₂.version ≠ e.version ∨ e₂.timestamp ≠ e.timestamp →
      successfulFetchWrite c a k) := by
  cases a with
  | lookupReq t p now fetch =>
      cases hs : lookupStore c (getCacheKey t p) with
      | some e₀ =>
          have hcache : applyAction c (.lookupReq t p now fetch) =
              (checkAndRefreshCache c t p now).1 := by
            show (lookupLatestVersion c t p now fetch).cache = _
            rw [lookupLatestVersion_hit now fetch hs]
          by_cases hv : isCacheValid now e₀ = true
          · exact lifecycle_unchanged c _ k
              (by rw [hcache, checkAndRefreshCache_fresh hs hv])
          · have hv₂ : isCacheValid now e₀ = false := by simpa using hv
            by_cases hr : e₀.refreshing = true
            · exact lifecycle_unchanged c _ k
                (by rw [hcache, checkAndRefreshCache_inflight now hs hr])
            · have hr₂ : e₀.refreshing = false := by simpa using hr
              exact lifecycle_refreshing_update c _ k t p e₀ true hs
                (by rw [hcache, checkAndRefreshCache_stale_claim hs hv₂ hr₂])
      | none =>
          cases hf : fetch with
          | ok v =>
              refine lifecycle_set c _ k t p v now ?_
                (fun hk => ⟨hk, getCachedVersion_of_none hs, v, rfl⟩)
              show (lookupLatestVersion c t p now (.ok v)).cache = _
              rw [lookupLatestVersion_miss_ok now hs]
          | error m =>
              refine lifecycle_unchanged c _ k ?_
              show (lookupLatestVersion c t p now (.error m)).cache = c
              rw [lookupLatestVersion_miss_error now hs]
  | refreshDone t p res now =>
      cases res with
      | ok v =>
          exact lifecycle_set c _ k t p v now rfl (fun hk => ⟨hk, v, rfl⟩)
      | error m =>
          cases hs : lookupStore c (getCacheKey t p) with
          | some e₀ =>
              refine lifecycle_refreshing_update c _ k t p e₀ false hs ?_
              show refreshCacheEntryComplete c t p (.error m) now = _
              simp [refreshCacheEntryComplete, hs]
          | none =>
              refine lifecycle_unchanged c _ k ?_
              show refreshCacheEntryComplete c t p (.error m) now = c
              simp [refreshCacheEntryComplete, hs]
  | warmKey t p res now =>
      cases res with
      | ok v =>
          exact lifecycle_set c _ k t p v now rfl (fun hk => ⟨hk, v, rfl⟩)
      | error m =>
          exact lifecycle_unchanged c _ k rfl

/-- Witness for C9: the creation clause at a concrete miss-path lookup
step on the empty store. -/
theorem c9_entry_lifecycle_witness :
    lookupStore [] (getCacheKey BdsType.win false) = none ∧
    lookupStore
      (applyAction [] (.lookupReq BdsType.win false 3 (.ok "1.0.0.0")))
      (getCacheKey BdsType.win false) =
      some { version := "1.0.0.0", timestamp := 3, refreshing := false } ∧
    successfulFetchWrite [] (.lookupReq BdsType.win false 3 (.ok "1.0.0.0"))
      (getCacheKey BdsType.win false) :=
  ⟨rfl, by decide,
   (c9_entry_lifecycle [] (.lookupReq BdsType.win false 3 (.ok "1.0.0.0"))
     (getCacheKey BdsType.win false)).1
     { version := "1.0.0.0", timestamp := 3, refreshing := false } rfl
     (by decide)⟩
